import Mathlib

/-!
Verification of the terminal multiplexer's core algorithms against its
natural-language specification.

The development shallowly embeds the Rust sources of the repository
(`src-tauri/src/shell/osc.rs`, `src-tauri/src/utils/state.rs`,
`src-tauri/src/utils/error.rs`, `src-tauri/src/rpc/types.rs`,
`src-tauri/src/rpc/methods.rs`, `src-tauri/src/pty/manager.rs`,
`src-tauri/src/pty/session.rs`) as executable Lean definitions.

Rust `&str` values handled by the OSC scanner are modelled as `List Char`;
all positions computed by the scanner are positions of ASCII substrings, so
char positions and the source's byte positions coincide on the slices the
code takes.  `urlencoding_decode` iterates over raw UTF-8 bytes, so it is
modelled on `List Nat` (byte values), with a char-level wrapper that mirrors
the `&str -> String` signature via UTF-8 encoding, exactly as the Rust
function observes its input.
-/

/-! ## Generic list scanning helpers (model of `str::find`) -/

/-- Model of Rust `str::find` for a pattern: index of the first position at
which `pat` occurs in `s`, if any. -/
def findSub (pat : List Char) : List Char → Option Nat
  | [] => if pat.isPrefixOf ([] : List Char) then some 0 else none
  | c :: t => if pat.isPrefixOf (c :: t) then some 0 else (findSub pat t).map (· + 1)

/-- Model of Rust `str::strip_prefix`: the remainder after `pre`, when `pre`
is a prefix. -/
def stripPrefix? (pre l : List Char) : Option (List Char) :=
  if pre.isPrefixOf l then some (l.drop pre.length) else none

/-- `true` when `pat` occurs somewhere in `s` (used to state the password
non-occurrence property). -/
def containsSub (pat s : List Char) : Bool :=
  (findSub pat s).isSome

/-! ## `shell/osc.rs`: data model -/

/-- `osc.rs` constant `ESC`. -/
def escC : Char := Char.ofNat 27

/-- `osc.rs` constant `BEL`. -/
def belC : Char := Char.ofNat 7

/-- `osc.rs` constant `OSC_START` (`ESC ]`). -/
def oscStartPat : List Char := [escC, ']']

/-- `osc.rs` constant `ST` (`ESC \`). -/
def stPat : List Char := [escC, '\\']

/-- `osc.rs` enum `ClipboardSelection`. -/
inductive ClipboardSelection where
  | Clipboard
  | Primary
  | Secondary
  | Select
  | CutBuffer (n : Nat)
deriving DecidableEq, Repr

/-- `ClipboardSelection::from_char`. -/
def ClipboardSelection.fromChar (c : Char) : Option ClipboardSelection :=
  match c with
  | 'c' => some .Clipboard
  | 'p' => some .Primary
  | 'q' => some .Secondary
  | 's' => some .Select
  | _ => if 48 ≤ c.toNat ∧ c.toNat ≤ 55 then some (.CutBuffer (c.toNat - 48)) else none

/-- `osc.rs` struct `ClipboardData`. -/
structure ClipboardData where
  selection : ClipboardSelection
  content : List Char
deriving DecidableEq, Repr

/-- `osc.rs` enum `OscSequence`. -/
inductive OscSequence where
  | WorkingDirectory (path : List Char)
  | Clipboard (data : ClipboardData)
  | Unknown
deriving DecidableEq, Repr

/-- `osc.rs` struct `OscParseResult`.  The field `end` of the source is named
`stop` here because `end` is a Lean keyword. -/
structure OscParseResult where
  sequence : OscSequence
  start : Nat
  stop : Nat
deriving DecidableEq, Repr

/-- `osc.rs` struct `OscHandler`. -/
structure OscHandler where
  max_clipboard_size : Nat
deriving DecidableEq, Repr

/-- `OscHandler::new` (1 MiB default cap). -/
def OscHandler.new : OscHandler :=
  { max_clipboard_size := 1024 * 1024 }

/-- `OscHandler::with_max_clipboard_size`. -/
def OscHandler.with_max_clipboard_size (h : OscHandler) (size : Nat) : OscHandler :=
  { h with max_clipboard_size := size }

/-! ## UTF-8 and base64 (models of `std` / the `base64` crate) -/

/-- UTF-8 encoding of one char (model of how Rust views a `char` inside a
`&str`'s byte slice). -/
def utf8EncodeChar (c : Char) : List Nat :=
  let n := c.toNat
  if n < 128 then [n]
  else if n < 2048 then [192 + n / 64, 128 + n % 64]
  else if n < 65536 then [224 + n / 4096, 128 + (n / 64) % 64, 128 + n % 64]
  else [240 + n / 262144, 128 + (n / 4096) % 64, 128 + (n / 64) % 64, 128 + n % 64]

/-- UTF-8 encoding of a char sequence. -/
def utf8Encode : List Char → List Nat
  | [] => []
  | c :: rest => utf8EncodeChar c ++ utf8Encode rest

/-- Strict UTF-8 decoding (model of `String::from_utf8`): `none` on any
ill-formed byte sequence (continuation errors, overlong forms, surrogates,
out-of-range scalars). -/
def utf8Decode : List Nat → Option (List Char)
  | [] => some []
  | b0 :: rest =>
    if b0 < 128 then
      (utf8Decode rest).map (Char.ofNat b0 :: ·)
    else if b0 < 194 then
      none
    else if b0 < 224 then
      match rest with
      | b1 :: rest' =>
        if 128 ≤ b1 ∧ b1 < 192 then
          (utf8Decode rest').map (Char.ofNat ((b0 - 192) * 64 + (b1 - 128)) :: ·)
        else none
      | _ => none
    else if b0 < 240 then
      match rest with
      | b1 :: b2 :: rest' =>
        if (if b0 = 224 then 160 ≤ b1 ∧ b1 < 192
            else if b0 = 237 then 128 ≤ b1 ∧ b1 < 160
            else 128 ≤ b1 ∧ b1 < 192) ∧ 128 ≤ b2 ∧ b2 < 192 then
          (utf8Decode rest').map
            (Char.ofNat ((b0 - 224) * 4096 + (b1 - 128) * 64 + (b2 - 128)) :: ·)
        else none
      | _ => none
    else if b0 < 245 then
      match rest with
      | b1 :: b2 :: b3 :: rest' =>
        if (if b0 = 240 then 144 ≤ b1 ∧ b1 < 192
            else if b0 = 244 then 128 ≤ b1 ∧ b1 < 144
            else 128 ≤ b1 ∧ b1 < 192) ∧ 128 ≤ b2 ∧ b2 < 192 ∧ 128 ≤ b3 ∧ b3 < 192 then
          (utf8Decode rest').map
            (Char.ofNat ((b0 - 240) * 262144 + (b1 - 128) * 4096 + (b2 - 128) * 64 + (b3 - 128)) :: ·)
        else none
      | _ => none
    else none

/-- Value of one base64 alphabet character (standard alphabet). -/
def base64Val (c : Char) : Option Nat :=
  let n := c.toNat
  if 65 ≤ n ∧ n ≤ 90 then some (n - 65)
  else if 97 ≤ n ∧ n ≤ 122 then some (n - 71)
  else if 48 ≤ n ∧ n ≤ 57 then some (n + 4)
  else if c = '+' then some 62
  else if c = '/' then some 63
  else none

/-- Model of the `base64` crate's `STANDARD` engine `decode` on 4-character
quanta: canonical padding required, trailing bits must be zero, `=` only in
the final quantum.  Returns `none` on any decode error. -/
def base64Quanta : List Char → Option (List Nat)
  | [] => some []
  | [a, b, '=', '='] =>
    match base64Val a, base64Val b with
    | some va, some vb =>
      if vb % 16 = 0 then some [va * 4 + vb / 16] else none
    | _, _ => none
  | [a, b, c, '='] =>
    match base64Val a, base64Val b, base64Val c with
    | some va, some vb, some vc =>
      if vc % 4 = 0 then some [va * 4 + vb / 16, (vb % 16) * 16 + vc / 4] else none
    | _, _, _ => none
  | a :: b :: c :: d :: rest =>
    match base64Val a, base64Val b, base64Val c, base64Val d with
    | some va, some vb, some vc, some vd =>
      (base64Quanta rest).map
        ((va * 4 + vb / 16) :: ((vb % 16) * 16 + vc / 4) :: ((vc % 4) * 64 + vd) :: ·)
    | _, _, _, _ => none
  | _ => none

/-- Model of `BASE64.decode` (`STANDARD` engine) on a char sequence. -/
def base64Decode (s : List Char) : Option (List Nat) :=
  base64Quanta s

/-! ## `urlencoding_decode` (`osc.rs` lines 325-360)

The Rust function iterates over the raw bytes of its input and pushes each
produced byte onto the output `String` with `as char` (a Latin-1 cast), so
it is modelled on byte lists: input bytes to output char codes. -/

/-- `true` for the bytes `0-9`, `A-F`, `a-f`: the digits accepted by
`u8::from_str_radix(_, 16)`. -/
def isHexDigitByte (b : Nat) : Bool :=
  (48 ≤ b && b ≤ 57) || (65 ≤ b && b ≤ 70) || (97 ≤ b && b ≤ 102)

/-- Value of a hex-digit byte. -/
def hexVal (b : Nat) : Nat :=
  if b ≤ 57 then b - 48 else if b ≤ 70 then b - 55 else b - 87

/-- `osc.rs` `urlencoding_decode`, byte level.  `37` is `%` and `43` is `+`.
`u8::from_str_radix(s, 16)` succeeds on two hex digits and, because it
accepts an optional leading plus sign, also on `+` followed by one hex
digit; any other two-byte tail after `%` (including non-UTF-8 pairs, which
fail the source's `from_utf8` check) is pushed through verbatim. -/
def urlencoding_decode : List Nat → List Nat
  | [] => []
  | b :: rest =>
    if b = 37 then
      match rest with
      | h1 :: h2 :: rest' =>
        if isHexDigitByte h1 && isHexDigitByte h2 then
          (hexVal h1 * 16 + hexVal h2) :: urlencoding_decode rest'
        else if h1 = 43 && isHexDigitByte h2 then
          hexVal h2 :: urlencoding_decode rest'
        else
          37 :: h1 :: h2 :: urlencoding_decode rest'
      | [h1] => [37, h1]
      | [] => [37]
    else
      b :: urlencoding_decode rest

/-- `urlencoding_decode` at the `&str -> String` interface: the function
reads its argument's UTF-8 bytes and casts each produced byte to a char. -/
def urlencodingDecodeChars (cs : List Char) : List Char :=
  (urlencoding_decode (utf8Encode cs)).map Char.ofNat

/-- Byte list of an ASCII string literal (each char is one byte). -/
def strBytes (s : String) : List Nat :=
  s.toList.map Char.toNat

/-! ## `OscHandler::parse` and helpers (`osc.rs` lines 126-312) -/

/-- `OscHandler::parse_file_url`.  In the source, both exits of the
no-slash-found branch return `None` (the `rest.is_empty()` test is
result-irrelevant), so that branch is a single `none` here. -/
def OscHandler.parse_file_url (_h : OscHandler) (url : List Char) : Option (List Char) :=
  match stripPrefix? ("file://".toList) url with
  | some rest =>
    match findSub ['/'] rest with
    | some path_start => some (urlencodingDecodeChars (rest.drop path_start))
    | none => none
  | none => none

/-- `OscHandler::parse_clipboard`'s `data.splitn(2, ';')`: at most two
fragments, split at the first `;`. -/
def splitnTwo (sep : Char) (l : List Char) : List (List Char) :=
  match findSub [sep] l with
  | none => [l]
  | some i => [l.take i, l.drop (i + 1)]

/-- `OscHandler::parse_clipboard`. -/
def OscHandler.parse_clipboard (h : OscHandler) (data : List Char) : Option ClipboardData :=
  match splitnTwo ';' data with
  | [selection_str, base64_data] =>
    let selection := (selection_str.head?.bind ClipboardSelection.fromChar).getD .Clipboard
    if h.max_clipboard_size < base64_data.length then none
    else if base64_data = [] then some { selection := selection, content := [] }
    else
      match base64Decode base64_data with
      | some bytes =>
        match utf8Decode bytes with
        | some content => some { selection := selection, content := content }
        | none => none
      | none => none
  | _ => none

/-- The OSC 52 arm of `OscHandler::parse` (the code after the OSC 7 block,
reached by fall-through). -/
def OscHandler.parse52 (h : OscHandler) (data : List Char) : OscSequence :=
  match stripPrefix? ("52;".toList) data with
  | some rest =>
    match h.parse_clipboard rest with
    | some clipboard_data => .Clipboard clipboard_data
    | none => .Unknown
  | none => .Unknown

/-- `OscHandler::parse`. -/
def OscHandler.parse (h : OscHandler) (data : List Char) : OscSequence :=
  if data = [] then .Unknown
  else
    match stripPrefix? ("7;".toList) data with
    | some rest =>
      match h.parse_file_url rest with
      | some path => .WorkingDirectory path
      | none =>
        if rest.head? = some '/' then .WorkingDirectory (urlencodingDecodeChars rest)
        else h.parse52 data
    | none => h.parse52 data

/-! ## `OscHandler::extract_sequences` / `strip_sequences` (lines 156-239)

The Rust `while` loop is embedded with a structural fuel parameter so the
function evaluates inside the kernel; `data.length + 1` units of fuel always
suffice because `search_start` strictly increases by at least two every
iteration (proved below as `extractLoopF_fuel_irrel`-style lemmas). -/

/-- The `match (bel_pos, st_pos)` selection of the nearest terminator
(`osc.rs` lines 177-192); `none` means the `continue` branch. -/
def chooseTerminator (belPos stPos : Option Nat) : Option (Nat × Nat) :=
  match belPos, stPos with
  | some b, some s => if b ≤ s then some (b, 1) else some (s, 2)
  | some b, none => some (b, 1)
  | none, some s => some (s, 2)
  | none, none => none

/-- One-loop-per-fuel-unit embedding of the `extract_sequences` loop body. -/
def extractLoopF (h : OscHandler) (data : List Char) : Nat → Nat → List OscParseResult
  | 0, _ => []
  | fuel + 1, searchStart =>
    match findSub oscStartPat (data.drop searchStart) with
    | none => []
    | some oscStart =>
      if searchStart + oscStart + 2 < data.length then
        match chooseTerminator
            (findSub [belC] (data.drop (searchStart + oscStart + 2)))
            (findSub stPat (data.drop (searchStart + oscStart + 2))) with
        | none => extractLoopF h data fuel (searchStart + oscStart + 2)
        | some (endOffset, terminatorLen) =>
          { sequence := h.parse ((data.drop (searchStart + oscStart + 2)).take endOffset),
            start := searchStart + oscStart,
            stop := searchStart + oscStart + 2 + endOffset + terminatorLen }
            :: extractLoopF h data fuel (searchStart + oscStart + 2 + endOffset + terminatorLen)
      else []

/-- `OscHandler::extract_sequences`. -/
def OscHandler.extract_sequences (h : OscHandler) (data : List Char) : List OscParseResult :=
  extractLoopF h data (data.length + 1) 0

/-- `OscHandler::strip_sequences`. -/
def OscHandler.strip_sequences (h : OscHandler) (data : List Char) :
    List Char × List OscSequence :=
  let results := h.extract_sequences data
  if results.isEmpty then (data, [])
  else
    let folded := results.foldl
      (fun acc r => (acc.1 ++ (data.drop acc.2).take (r.start - acc.2), r.stop)) ([], 0)
    (folded.1 ++ data.drop folded.2, results.map (·.sequence))

/-! ## Specification-side scanner

Written from the specification's words (section 4.5, stripping contract):
`strip_sequences(s)` returns `s` with each well-terminated OSC sequence
(its `ESC ]` start through its nearest `BEL` or `ESC \` terminator,
inclusive) removed and the ordered list of events extracted, while a
started-but-unterminated OSC at end of the chunk is left in place and
yields no event. -/

/-- Spec-side stripping contract: scan left to right; at the first `ESC ]`,
when a terminator follows, delete through the terminator, record the parsed
event, and continue after it; when no terminator follows, the chunk ends in
an unterminated OSC, which stays in place with no event. -/
def specStripSequences (h : OscHandler) (data : List Char) : List Char × List OscSequence :=
  match hf : findSub oscStartPat data with
  | none => (data, [])
  | some i =>
    match chooseTerminator
        (findSub [belC] (data.drop (i + 2)))
        (findSub stPat (data.drop (i + 2))) with
    | none => (data, [])
    | some (endOffset, terminatorLen) =>
      let rest := specStripSequences h (data.drop (i + 2 + endOffset + terminatorLen))
      (data.take i ++ rest.1,
        h.parse ((data.drop (i + 2)).take endOffset) :: rest.2)
termination_by data.length
decreasing_by
  rcases data with _ | ⟨c, t⟩
  · simp [findSub, oscStartPat, List.isPrefixOf] at hf
  · simp only [List.length_drop, List.length_cons]
    omega

/-! ## `rpc/types.rs`: protocol data model -/

/-- `types.rs` struct `TermSize` (`u16` fields modelled as `Nat`; no
arithmetic overflows them here). -/
structure TermSize where
  rows : Nat
  cols : Nat
deriving DecidableEq, Repr

/-- `TermSize::default` (24 x 80). -/
def TermSize.default : TermSize := { rows := 24, cols := 80 }

/-- `types.rs` enum `ConnectionType` (serde: internally tagged with `type`,
lowercase variant names, `skip_serializing_if = Option::is_none` on every
optional field).  The `env` map is modelled as an association list. -/
inductive ConnectionType where
  | Local (shell_path : Option String) (cwd : Option String)
      (env : Option (List (String × String)))
  | Ssh (host : String) (port : Option Nat) (user : Option String)
      (identity_file : Option String) (password : Option String)
deriving DecidableEq, Repr

/-- `types.rs` enum `SessionStatus`. -/
inductive SessionStatus where
  | Init
  | Connecting
  | Running
  | Done
  | Error
deriving DecidableEq, Repr

/-- `types.rs` struct `SessionInfo`. -/
structure SessionInfo where
  id : String
  connection_type : ConnectionType
  status : SessionStatus
  title : Option String
  cwd : Option String
  exit_code : Option Int
  created_at : Nat
deriving DecidableEq, Repr

/-- `types.rs` struct `InputRequest`. -/
structure InputRequest where
  session_id : String
  data : String
deriving DecidableEq, Repr

/-- `types.rs` struct `ResizeRequest`. -/
structure ResizeRequest where
  session_id : String
  term_size : TermSize
deriving DecidableEq, Repr

/-- `types.rs` struct `CloseSessionRequest`. -/
structure CloseSessionRequest where
  session_id : String
deriving DecidableEq, Repr

/-- Minimal JSON value model (for `serde_json::Value` fields of the
protocol types). -/
inductive Json where
  | null
  | bool (b : Bool)
  | num (n : Int)
  | str (s : String)
  | arr (xs : List Json)
  | obj (fields : List (String × Json))

/-- `types.rs` struct `JsonRpcError`. -/
structure JsonRpcError where
  code : Int
  message : String
  data : Option Json

/-- `JsonRpcError::internal_error` (-32603, no data). -/
def JsonRpcError.internal_error (message : String) : JsonRpcError :=
  { code := -32603, message := message, data := none }

/-- `JsonRpcError::invalid_params` (-32602, no data). -/
def JsonRpcError.invalid_params (message : String) : JsonRpcError :=
  { code := -32602, message := message, data := none }

/-- `types.rs` struct `JsonRpcResponse`. -/
structure JsonRpcResponse where
  jsonrpc : String
  result : Option Json
  error : Option JsonRpcError
  id : Json

/-- `JsonRpcResponse::success`. -/
def JsonRpcResponse.success (id : Json) (result : Json) : JsonRpcResponse :=
  { jsonrpc := "2.0", result := some result, error := none, id := id }

/-- `JsonRpcResponse::error` (named `mkError` here because `error` is the
struct field's name). -/
def JsonRpcResponse.mkError (id : Json) (e : JsonRpcError) : JsonRpcResponse :=
  { jsonrpc := "2.0", result := none, error := some e, id := id }

/-! ## `utils/error.rs`: error taxonomy

The `IoError` and `SerializationError` variants wrap foreign error values
(`std::io::Error`, `serde_json::Error`); they are modelled by their display
strings. -/

/-- `error.rs` enum `TerminalError`. -/
inductive TerminalError where
  | PtyCreationFailed (s : String)
  | SshConnectionFailed (s : String)
  | SessionNotFound (s : String)
  | InvalidRequest (s : String)
  | IoError (s : String)
  | SerializationError (s : String)
  | AuthenticationFailed (s : String)
  | ConnectionTimeout (s : String)
  | SessionClosed (s : String)
  | SshError (s : String)
  | ChannelError (s : String)
  | HostResolutionFailed (s : String)
  | PrivateKeyLoadFailed (s : String)
deriving DecidableEq, Repr

/-- The `thiserror`-derived `Display` of `TerminalError` (what
`err.to_string()` returns). -/
def TerminalError.toString : TerminalError → String
  | .PtyCreationFailed s => "PTY 创建失败: " ++ s
  | .SshConnectionFailed s => "SSH 连接失败: " ++ s
  | .SessionNotFound s => "会话不存在: " ++ s
  | .InvalidRequest s => "无效的请求: " ++ s
  | .IoError s => "IO 错误: " ++ s
  | .SerializationError s => "序列化错误: " ++ s
  | .AuthenticationFailed s => "认证失败: " ++ s
  | .ConnectionTimeout s => "连接超时: " ++ s
  | .SessionClosed s => "会话已关闭: " ++ s
  | .SshError s => "SSH 错误: " ++ s
  | .ChannelError s => "通道错误: " ++ s
  | .HostResolutionFailed s => "主机解析失败: " ++ s
  | .PrivateKeyLoadFailed s => "私钥加载失败: " ++ s

/-- `TerminalError::code` (internal numeric code). -/
def TerminalError.code : TerminalError → Int
  | .PtyCreationFailed _ => 1001
  | .SshConnectionFailed _ => 1002
  | .SessionNotFound _ => 1003
  | .InvalidRequest _ => 1004
  | .IoError _ => 1005
  | .SerializationError _ => 1006
  | .AuthenticationFailed _ => 1007
  | .ConnectionTimeout _ => 1008
  | .SessionClosed _ => 1009
  | .SshError _ => 1010
  | .ChannelError _ => 1011
  | .HostResolutionFailed _ => 1012
  | .PrivateKeyLoadFailed _ => 1013

/-- `TerminalError::error_type` (stable ASCII token). -/
def TerminalError.error_type : TerminalError → String
  | .PtyCreationFailed _ => "pty_creation_failed"
  | .SshConnectionFailed _ => "ssh_connection_failed"
  | .SessionNotFound _ => "session_not_found"
  | .InvalidRequest _ => "invalid_request"
  | .IoError _ => "io_error"
  | .SerializationError _ => "serialization_error"
  | .AuthenticationFailed _ => "authentication_failed"
  | .ConnectionTimeout _ => "connection_timeout"
  | .SessionClosed _ => "session_closed"
  | .SshError _ => "ssh_error"
  | .ChannelError _ => "channel_error"
  | .HostResolutionFailed _ => "host_resolution_failed"
  | .PrivateKeyLoadFailed _ => "private_key_load_failed"

/-- `TerminalError::is_recoverable`. -/
def TerminalError.is_recoverable : TerminalError → Bool
  | .ConnectionTimeout _ => true
  | .HostResolutionFailed _ => true
  | .AuthenticationFailed _ => true
  | _ => false

/-- `impl From<TerminalError> for JsonRpcError` (`error.rs` lines 90-120):
maps each variant to its protocol code and attaches the
`{error_type, error_code, recoverable}` data object. -/
def terminalErrorToJsonRpc (err : TerminalError) : JsonRpcError :=
  { code :=
      match err with
      | .SessionNotFound _ => -32001
      | .InvalidRequest _ => -32602
      | .SerializationError _ => -32700
      | .PtyCreationFailed _ => -32010
      | .SshConnectionFailed _ => -32020
      | .AuthenticationFailed _ => -32021
      | .ConnectionTimeout _ => -32022
      | .HostResolutionFailed _ => -32023
      | .PrivateKeyLoadFailed _ => -32024
      | .SshError _ => -32025
      | .ChannelError _ => -32026
      | .SessionClosed _ => -32002
      | .IoError _ => -32603,
    message := err.toString,
    data := some (.obj
      [("error_type", .str err.error_type),
       ("error_code", .num err.code),
       ("recoverable", .bool err.is_recoverable)]) }

/-! ## `utils/state.rs`: session state machine -/

/-- `state.rs` enum `StateTransitionResult`. -/
inductive StateTransitionResult where
  | Success
  | Invalid (fromStatus : SessionStatus) (toStatus : SessionStatus) (reason : String)
deriving DecidableEq, Repr

/-- `state.rs` struct `SessionStateManager`. -/
structure SessionStateManager where
  current_status : SessionStatus
  session_id : String
  error_message : Option String
deriving DecidableEq, Repr

/-- `SessionStateManager::new`. -/
def SessionStateManager.new (session_id : String) : SessionStateManager :=
  { current_status := .Init, session_id := session_id, error_message := none }

/-- `SessionStateManager::with_status`. -/
def SessionStateManager.with_status (session_id : String) (status : SessionStatus) :
    SessionStateManager :=
  { current_status := status, session_id := session_id, error_message := none }

/-- `SessionStateManager::is_valid_transition` (`state.rs` lines 183-207). -/
def SessionStateManager.is_valid_transition (from' to' : SessionStatus) : Bool :=
  if from' = to' then true
  else if to' = .Error then true
  else
    match from' with
    | .Init => to' == .Connecting || to' == .Running || to' == .Done
    | .Connecting => to' == .Running || to' == .Done
    | .Running => to' == .Done
    | .Done => false
    | .Error => false

/-- Rust `Debug` rendering of `SessionStatus` (used in log/reason strings). -/
def SessionStatus.debugName : SessionStatus → String
  | .Init => "Init"
  | .Connecting => "Connecting"
  | .Running => "Running"
  | .Done => "Done"
  | .Error => "Error"

/-- `SessionStateManager::get_invalid_transition_reason`. -/
def SessionStateManager.get_invalid_transition_reason
    (from' to' : SessionStatus) : String :=
  match from' with
  | .Done => "会话已完成，不能再转换状态"
  | .Error => "会话处于错误状态，不能再转换状态"
  | _ => "不允许从 " ++ from'.debugName ++ " 转换到 " ++ to'.debugName

/-- `SessionStateManager::transition_to` (`state.rs` lines 94-128): on a
valid transition, set the status and clear the error message unless the
target is `Error`; on an invalid one, leave the manager unchanged and
report `Invalid`. -/
def SessionStateManager.transition_to (m : SessionStateManager) (target : SessionStatus) :
    SessionStateManager × StateTransitionResult :=
  if SessionStateManager.is_valid_transition m.current_status target then
    ({ m with
        current_status := target,
        error_message := if target = .Error then m.error_message else none },
      .Success)
  else
    (m, .Invalid m.current_status target
      (SessionStateManager.get_invalid_transition_reason m.current_status target))

/-- `SessionStateManager::transition_to_error` (`state.rs` lines 134-145). -/
def SessionStateManager.transition_to_error (m : SessionStateManager)
    (error : TerminalError) : SessionStateManager :=
  { m with current_status := .Error, error_message := some error.toString }

/-- `SessionStateManager::transition_to_error_with_message`. -/
def SessionStateManager.transition_to_error_with_message (m : SessionStateManager)
    (message : String) : SessionStateManager :=
  { m with current_status := .Error, error_message := some message }

/-- `SessionStateManager::force_set_status` (bypasses validation, does not
touch the error message). -/
def SessionStateManager.force_set_status (m : SessionStateManager)
    (status : SessionStatus) : SessionStateManager :=
  { m with current_status := status }

/-! ## `pty/session.rs` and `pty/manager.rs`: sessions and the registry

`LocalPty` wraps operating-system PTY handles; its `write`/`resize`/`kill`
outcomes depend on the environment, so they are modelled as recorded
results.  The output-reader task is concurrency plumbing with no effect on
the registry state modelled here (`stop_output_reader` only joins a task),
so it is omitted from the state. -/

/-- Model of `pty/local.rs` `LocalPty`: the recorded outcomes of its
fallible operations (`none` = `Ok(())`). -/
structure LocalPty where
  write_result : Option TerminalError
  resize_result : Option TerminalError
  kill_result : Option TerminalError
deriving DecidableEq, Repr

/-- `pty/session.rs` struct `PtySession` (info plus the optional local
PTY; the output-reader handle is omitted, see above). -/
structure PtySession where
  info : SessionInfo
  local_pty : Option LocalPty
deriving DecidableEq, Repr

/-- `PtySession::new` (no PTY started; status `Init`).  `created_at` is the
wall clock read in the source and is a parameter here. -/
def PtySession.new (id : String) (connection_type : ConnectionType)
    (created_at : Nat) : PtySession :=
  { info :=
      { id := id, connection_type := connection_type, status := .Init,
        title := none, cwd := none, exit_code := none, created_at := created_at },
    local_pty := none }

/-- `PtySession::set_status`. -/
def PtySession.set_status (s : PtySession) (status : SessionStatus) : PtySession :=
  { s with info := { s.info with status := status } }

/-- `PtySession::write` (`session.rs` lines 135-142): error when no PTY is
attached, otherwise the PTY write outcome. -/
def PtySession.write (s : PtySession) : Option TerminalError :=
  match s.local_pty with
  | some pty => pty.write_result
  | none => some (.SessionNotFound "No PTY available")

/-- `PtySession::resize`. -/
def PtySession.resize (s : PtySession) : Option TerminalError :=
  match s.local_pty with
  | some pty => pty.resize_result
  | none => some (.SessionNotFound "No PTY available")

/-- `PtySession::kill` (`session.rs` lines 165-172): `Ok(())` when there is
no PTY. -/
def PtySession.kill (s : PtySession) : Option TerminalError :=
  match s.local_pty with
  | some pty => pty.kill_result
  | none => none

/-- `pty/manager.rs` struct `PtyManager`.  The `HashMap` is modelled as an
association list with unique keys; the notification sender carries no
registry-relevant state. -/
structure PtyManager where
  sessions : List (String × PtySession)
  notification_sender : Option Unit
deriving DecidableEq, Repr

/-- `PtyManager::new`. -/
def PtyManager.new : PtyManager :=
  { sessions := [], notification_sender := none }

/-- The SSH arm of `PtyManager::create_session` (`manager.rs` lines 63-84):
store a placeholder session in `Connecting` under a fresh id.  The fresh
UUID and the clock are environment inputs, passed as parameters. -/
def PtyManager.create_session_ssh (m : PtyManager) (session_id : String)
    (created_at : Nat) (connection : ConnectionType) : PtyManager × String :=
  let session := (PtySession.new session_id connection created_at).set_status .Connecting
  ({ m with sessions := (session_id, session) :: m.sessions }, session_id)

/-- `PtyManager::send_input` (`manager.rs` lines 88-106): unknown id first,
then base64 decoding, then the transport write.  The source formats the
decode failure cause into the message; the cause text is elided here. -/
def PtyManager.send_input (m : PtyManager) (session_id : String) (data : String) :
    Option TerminalError :=
  match m.sessions.lookup session_id with
  | none => some (.SessionNotFound session_id)
  | some session =>
    match base64Decode data.toList with
    | none => some (.InvalidRequest "Invalid base64 data")
    | some _ => session.write

/-- `PtyManager::resize_session`. -/
def PtyManager.resize_session (m : PtyManager) (session_id : String)
    (_term_size : TermSize) : Option TerminalError :=
  match m.sessions.lookup session_id with
  | none => some (.SessionNotFound session_id)
  | some session => session.resize

/-- `PtyManager::close_session` (`manager.rs` lines 132-146): `remove` the
session from the map first, then stop the reader (a no-op on the modelled
state), then kill the transport, propagating a kill failure. -/
def PtyManager.close_session (m : PtyManager) (session_id : String) :
    PtyManager × Option TerminalError :=
  match m.sessions.lookup session_id with
  | none => (m, some (.SessionNotFound session_id))
  | some session =>
    let m' := { m with sessions := m.sessions.filter (fun p => p.1 != session_id) }
    match session.kill with
    | none => (m', none)
    | some e => (m', some e)

/-- `PtyManager::list_sessions`. -/
def PtyManager.list_sessions (m : PtyManager) : List SessionInfo :=
  m.sessions.map (fun p => p.2.info)

/-- `PtyManager::get_session`. -/
def PtyManager.get_session (m : PtyManager) (session_id : String) : Option SessionInfo :=
  (m.sessions.lookup session_id).map (·.info)

/-! ## `rpc/methods.rs`: request handlers

Each handler is modelled after its parameters have deserialized
successfully (the `invalid-params` early returns concern malformed JSON,
not the registry semantics considered here). -/

/-- `methods.rs` struct `RpcMethods`. -/
structure RpcMethods where
  pty_manager : PtyManager

/-- `RpcMethods::new`. -/
def RpcMethods.new : RpcMethods :=
  { pty_manager := PtyManager.new }

/-- `RpcMethods::session_input` (`methods.rs` lines 87-114): any registry
error is wrapped with `JsonRpcError::internal_error(e.to_string())`. -/
def RpcMethods.session_input (mts : RpcMethods) (request : InputRequest)
    (id : Json) : JsonRpcResponse :=
  match mts.pty_manager.send_input request.session_id request.data with
  | none => JsonRpcResponse.success id Json.null
  | some e => JsonRpcResponse.mkError id (JsonRpcError.internal_error e.toString)

/-- `RpcMethods::session_resize` (`methods.rs` lines 117-147). -/
def RpcMethods.session_resize (mts : RpcMethods) (request : ResizeRequest)
    (id : Json) : JsonRpcResponse :=
  match mts.pty_manager.resize_session request.session_id request.term_size with
  | none => JsonRpcResponse.success id Json.null
  | some e => JsonRpcResponse.mkError id (JsonRpcError.internal_error e.toString)

/-- `RpcMethods::session_close` (`methods.rs` lines 150-176). -/
def RpcMethods.session_close (mts : RpcMethods) (request : CloseSessionRequest)
    (id : Json) : RpcMethods × JsonRpcResponse :=
  match mts.pty_manager.close_session request.session_id with
  | (m', none) => ({ pty_manager := m' }, JsonRpcResponse.success id Json.null)
  | (m', some e) =>
    ({ pty_manager := m' }, JsonRpcResponse.mkError id (JsonRpcError.internal_error e.toString))

/-! ## serde serialization of session snapshots

Models `serde_json::to_value`/`to_string` on `SessionInfo` as derived in
`types.rs`: fields in declaration order, `skip_serializing_if =
Option::is_none` options omitted when `None`, `ConnectionType` internally
tagged with `type` and lowercase variant names. -/

/-- Left brace as a string. -/
def lbrace : String := String.singleton (Char.ofNat 123)

/-- Right brace as a string. -/
def rbrace : String := String.singleton (Char.ofNat 125)

/-- Hex digit char for a value below 16 (lowercase, as `serde_json` emits
in `\u00XX` escapes). -/
def hexDigitChar (n : Nat) : Char :=
  if n < 10 then Char.ofNat (48 + n) else Char.ofNat (87 + n)

/-- JSON string escaping of one char (quote, backslash, control chars). -/
def escapeJsonChar (c : Char) : List Char :=
  if c = '"' then ['\\', '"']
  else if c = '\\' then ['\\', '\\']
  else if c.toNat < 32 then
    ['\\', 'u', '0', '0', hexDigitChar (c.toNat / 16), hexDigitChar (c.toNat % 16)]
  else [c]

/-- JSON string escaping. -/
def escapeJson (s : String) : String :=
  String.mk (s.toList.flatMap escapeJsonChar)

/-- A JSON string literal. -/
def jstr (s : String) : String :=
  "\"" ++ escapeJson s ++ "\""

/-- An optional string field with leading comma, omitted when `None`
(`skip_serializing_if = Option::is_none`). -/
def optStrField (name : String) (v : Option String) : String :=
  match v with
  | none => ""
  | some s => "," ++ jstr name ++ ":" ++ jstr s

/-- An optional numeric field with leading comma, omitted when `None`. -/
def optNumField (name : String) (v : Option Int) : String :=
  match v with
  | none => ""
  | some n => "," ++ jstr name ++ ":" ++ toString n

/-- Serialization of the optional `env` map (association list order). -/
def optEnvField (v : Option (List (String × String))) : String :=
  match v with
  | none => ""
  | some kvs =>
    "," ++ jstr "env" ++ ":" ++ lbrace
      ++ String.intercalate "," (kvs.map (fun kv => jstr kv.1 ++ ":" ++ jstr kv.2))
      ++ rbrace

/-- serde serialization of `ConnectionType`. -/
def serializeConnectionType : ConnectionType → String
  | .Local shell_path cwd env =>
    lbrace ++ jstr "type" ++ ":" ++ jstr "local"
      ++ optStrField "shell_path" shell_path
      ++ optStrField "cwd" cwd
      ++ optEnvField env
      ++ rbrace
  | .Ssh host port user identity_file password =>
    lbrace ++ jstr "type" ++ ":" ++ jstr "ssh"
      ++ "," ++ jstr "host" ++ ":" ++ jstr host
      ++ (match port with
          | none => ""
          | some p => "," ++ jstr "port" ++ ":" ++ toString p)
      ++ optStrField "user" user
      ++ optStrField "identity_file" identity_file
      ++ optStrField "password" password
      ++ rbrace

/-- serde serialization of `SessionStatus` (lowercase). -/
def serializeSessionStatus : SessionStatus → String
  | .Init => "init"
  | .Connecting => "connecting"
  | .Running => "running"
  | .Done => "done"
  | .Error => "error"

/-- serde serialization of `SessionInfo`. -/
def serializeSessionInfo (info : SessionInfo) : String :=
  lbrace ++ jstr "id" ++ ":" ++ jstr info.id
    ++ "," ++ jstr "connection_type" ++ ":" ++ serializeConnectionType info.connection_type
    ++ "," ++ jstr "status" ++ ":" ++ jstr (serializeSessionStatus info.status)
    ++ optStrField "title" info.title
    ++ optStrField "cwd" info.cwd
    ++ optNumField "exit_code" info.exit_code
    ++ "," ++ jstr "created_at" ++ ":" ++ toString info.created_at
    ++ rbrace

/-! ## URL encoder (from the repository's property test in `osc.rs`)

`prop_url_decode_handles_encoded_chars` encodes a path by keeping ASCII
alphanumerics and `/ - _ .` and emitting `%XX` with uppercase hex for
every other byte; this is the "URL-encoded form" the round-trip property
quantifies over. -/

/-- Bytes kept verbatim by the test's encoder. -/
def isUnreservedByte (b : Nat) : Bool :=
  (48 ≤ b && b ≤ 57) || (65 ≤ b && b ≤ 90) || (97 ≤ b && b ≤ 122)
    || b == 47 || b == 45 || b == 95 || b == 46

/-- Byte value of the uppercase hex digit for `n < 16`. -/
def hexDigitUpper (n : Nat) : Nat :=
  if n < 10 then 48 + n else 55 + n

/-- The test's URL encoder, byte level. -/
def urlEncode : List Nat → List Nat
  | [] => []
  | b :: rest =>
    (if isUnreservedByte b then [b]
     else [37, hexDigitUpper (b / 16), hexDigitUpper (b % 16)]) ++ urlEncode rest

/-! ## Concrete fixtures used by the theorems below -/

/-- Scenario S1 input: `"before\x1b]7;file://localhost/home/user\x07after"`. -/
def s1Input : List Char :=
  "before".toList ++ [escC, ']'] ++ "7;file://localhost/home/user".toList
    ++ [belC] ++ "after".toList

/-- An SSH descriptor carrying a password. -/
def sshDemoDescriptor : ConnectionType :=
  .Ssh "example.com" (some 22) (some "root") none (some "hunter2")

/-- The registry after `session.create` stored the SSH placeholder session
(fresh id and clock instantiated concretely). -/
def sshDemoManager : PtyManager :=
  (PtyManager.new.create_session_ssh "11111111-2222-3333-4444-555555555555" 0
    sshDemoDescriptor).1

/-- The serialized fragment exposing the secret. -/
def passwordFragment : List Char := "\"password\":\"hunter2\"".toList

/-- A session info record for the close-session fixture. -/
def demoSessionInfo : SessionInfo :=
  { id := "sess-1", connection_type := .Local none none none, status := .Running,
    title := none, cwd := none, exit_code := none, created_at := 0 }

/-- A local PTY whose kill fails (environment outcome). -/
def demoFailingPty : LocalPty :=
  { write_result := none, resize_result := none,
    kill_result := some (.IoError "kill failed") }

/-- A registry holding one session whose transport kill fails. -/
def demoManager : PtyManager :=
  { sessions := [("sess-1", { info := demoSessionInfo, local_pty := some demoFailingPty })],
    notification_sender := none }

/-- The stripped text determined by an extraction result list: the
inter-sequence segments of `data` (used to relate the source's fold to the
specification scanner). -/
def stripConcatFrom (data : List Char) : List OscParseResult → Nat → List Char
  | [], lastEnd => data.drop lastEnd
  | r :: rs, lastEnd =>
    (data.drop lastEnd).take (r.start - lastEnd) ++ stripConcatFrom data rs r.stop

/-! ## Helper lemmas -/

/-- An occurrence reported by `findSub` fits inside the searched list. -/
theorem findSub_some_bound {pat s : List Char} {i : Nat} (h : findSub pat s = some i) :
    i + pat.length ≤ s.length := by
  induction s generalizing i with
  | nil =>
    simp only [findSub] at h
    split at h
    · rename_i hp
      cases h
      simpa using (List.isPrefixOf_iff_prefix.mp hp).length_le
    · exact absurd h (by simp)
  | cons c t ih =>
    simp only [findSub] at h
    split at h
    · rename_i hp
      cases h
      simpa using (List.isPrefixOf_iff_prefix.mp hp).length_le
    · rcases Option.map_eq_some'.mp h with ⟨j, hj, rfl⟩
      have := ih hj
      simp only [List.length_cons]
      omega

/-- `findSub` reports an actual occurrence. -/
theorem findSub_some_prefix {pat s : List Char} {i : Nat} (h : findSub pat s = some i) :
    pat.isPrefixOf (s.drop i) = true := by
  induction s generalizing i with
  | nil =>
    simp only [findSub] at h
    split at h
    · rename_i hp; cases h; simpa using hp
    · exact absurd h (by simp)
  | cons c t ih =>
    simp only [findSub] at h
    split at h
    · rename_i hp; cases h; simpa using hp
    · rcases Option.map_eq_some'.mp h with ⟨j, hj, rfl⟩
      simpa using ih hj

/-- When `findSub` finds nothing, no position carries the pattern. -/
theorem findSub_none_no_prefix {pat s : List Char} (h : findSub pat s = none) :
    ∀ j, pat.isPrefixOf (s.drop j) = false := by
  induction s with
  | nil =>
    intro j
    simp only [findSub] at h
    split at h
    · exact absurd h (by simp)
    · rename_i hp
      simpa [List.drop_nil] using Bool.eq_false_iff.mpr hp
  | cons c t ih =>
    intro j
    simp only [findSub] at h
    split at h
    · exact absurd h (by simp)
    · rename_i hp
      have ht : findSub pat t = none := by
        rcases he : findSub pat t with _ | k
        · rfl
        · rw [he] at h; simp at h
      match j with
      | 0 => simpa using Bool.eq_false_iff.mpr hp
      | j + 1 => simpa using ih ht j

/-- Converse of `findSub_none_no_prefix`. -/
theorem findSub_none_of_no_prefix {pat s : List Char}
    (h : ∀ j, pat.isPrefixOf (s.drop j) = false) : findSub pat s = none := by
  induction s with
  | nil =>
    simp only [findSub]
    rw [if_neg]
    intro hp
    have := h 0
    simp [hp] at this
  | cons c t ih =>
    simp only [findSub]
    rw [if_neg, ih, Option.map_none']
    · intro j
      simpa using h (j + 1)
    · intro hp
      have := h 0
      simp [hp] at this

/-- A pattern absent from `s` is absent from every suffix of `s`. -/
theorem findSub_drop_none {pat s : List Char} (h : findSub pat s = none) (k : Nat) :
    findSub pat (s.drop k) = none := by
  apply findSub_none_of_no_prefix
  intro j
  rw [List.drop_drop]
  have := findSub_none_no_prefix h (j + k)
  rwa [Nat.add_comm j k] at this

/-- Appending to a nonempty prefix keeps the length positive. -/
theorem length_append_pos (p s : String) (hp : 0 < p.length) : 0 < (p ++ s).length := by
  rw [String.length_append]
  omega

/-- Every `TerminalError` display string is non-empty (each variant prints
a non-empty prefix before its payload). -/
theorem terminalError_toString_ne_empty (e : TerminalError) :
    0 < e.toString.length := by
  cases e <;> simp only [TerminalError.toString] <;> exact length_append_pos _ _ (by decide)

/-- Looking up a key in a list filtered to exclude that key yields nothing. -/
theorem lookup_filter_ne_none (l : List (String × PtySession)) (sid : String) :
    (l.filter (fun p => p.1 != sid)).lookup sid = none := by
  induction l with
  | nil => rfl
  | cons p t ih =>
    by_cases hp : p.1 = sid
    · simp [List.filter_cons, hp, ih]
    · have hb : (sid == p.1) = false := by
        simp [Ne.symm hp]
      simp [List.filter_cons, List.lookup, bne_iff_ne, hp, ih, hb]

/-! ## Claim C3: transition relation -/

/-- Claim C3, counterexample: the claim also asserts that every non-self
transition out of `Done` is invalid, yet `is_valid_transition(Done, Error)`
holds (the any-state-to-`Error` rule fires before the `Done` arm), and
`Error` is not a self-transition from `Done`. -/
theorem done_to_error_transition_counterexample :
    SessionStateManager.is_valid_transition .Done .Error = true ∧
      SessionStatus.Done ≠ SessionStatus.Error := by
  decide

/-- Claim C3 (amended): `valid_transition(S, Error)` holds for every state
`S`; out of `Done` the only valid transitions are the self-transition and
the transition to `Error`, and out of `Error` only the self-transition is
valid. -/
theorem transition_relation_amended :
    (∀ s : SessionStatus, SessionStateManager.is_valid_transition s .Error = true) ∧
    (∀ t : SessionStatus,
        SessionStateManager.is_valid_transition .Done t = true ↔ (t = .Done ∨ t = .Error)) ∧
    (∀ t : SessionStatus,
        SessionStateManager.is_valid_transition .Error t = true ↔ t = .Error) := by
  refine ⟨fun s => by cases s <;> decide, fun t => by cases t <;> decide,
    fun t => by cases t <;> decide⟩

/-! ## Claim C4: error message discipline -/

/-- Claim C4, counterexample: `transition_to(Error)` is a valid transition
that puts a fresh manager in status `Error` while its error message stays
`None` — entering `Error` through `transition_to` records no message. -/
theorem error_entry_without_message_counterexample :
    ((SessionStateManager.new "s").transition_to .Error).2 = .Success ∧
    ((SessionStateManager.new "s").transition_to .Error).1.current_status = .Error ∧
    ((SessionStateManager.new "s").transition_to .Error).1.error_message = none := by
  decide

/-- Claim C4 (amended): `transition_to_error` and
`transition_to_error_with_message` put the manager in `Error` and record a
message (non-empty for `transition_to_error`, whose display string always
has a non-empty prefix); a successful `transition_to` into a non-`Error`
status clears the message; a `transition_to` into `Error` always succeeds
but leaves the previous message unchanged (possibly `None`); and
`force_set_status` never modifies the message. -/
theorem error_message_discipline_amended :
    (∀ (e : TerminalError) (m : SessionStateManager),
        (m.transition_to_error e).current_status = .Error ∧
        (m.transition_to_error e).error_message = some e.toString ∧
        0 < e.toString.length) ∧
    (∀ (msg : String) (m : SessionStateManager),
        (m.transition_to_error_with_message msg).current_status = .Error ∧
        (m.transition_to_error_with_message msg).error_message = some msg) ∧
    (∀ (m : SessionStateManager) (t : SessionStatus), t ≠ .Error →
        (m.transition_to t).2 = .Success →
        (m.transition_to t).1.error_message = none) ∧
    (∀ m : SessionStateManager,
        (m.transition_to .Error).2 = .Success ∧
        (m.transition_to .Error).1.error_message = m.error_message) ∧
    (∀ (m : SessionStateManager) (st : SessionStatus),
        (m.force_set_status st).error_message = m.error_message) := by
  refine ⟨?_, ?_, ?_, ?_, ?_⟩
  · intro e m
    exact ⟨rfl, rfl, terminalError_toString_ne_empty e⟩
  · intro msg m
    exact ⟨rfl, rfl⟩
  · intro m t ht hs
    by_cases hv : SessionStateManager.is_valid_transition m.current_status t = true
    · simp [SessionStateManager.transition_to, hv, ht]
    · simp [SessionStateManager.transition_to, hv] at hs
  · intro m
    have hv : SessionStateManager.is_valid_transition m.current_status .Error = true := by
      cases hm : m.current_status <;> decide
    simp [SessionStateManager.transition_to, hv]
  · intro m st
    rfl

/-- Witness for the amended C4 theorem: the hypothesis-bearing conjunct at
a fresh manager and target `Running`. -/
theorem error_message_discipline_amended_witness :
    (SessionStatus.Running ≠ SessionStatus.Error) ∧
    (((SessionStateManager.new "w").transition_to .Running).2 = .Success) ∧
    ((SessionStateManager.new "w").transition_to .Running).1.error_message = none :=
  ⟨by decide, by decide,
    error_message_discipline_amended.2.2.1 (SessionStateManager.new "w") .Running
      (by decide) (by decide)⟩

/-! ## Claim C9: invalid transitions are rejected without mutation -/

/-- Claim C9: whenever the transition from the manager's current status to
the target is invalid, `transition_to` leaves the manager (status and error
message) unchanged and returns `Invalid` naming the attempted transition. -/
theorem invalid_transition_rejected :
    ∀ (m : SessionStateManager) (target : SessionStatus),
      SessionStateManager.is_valid_transition m.current_status target = false →
      m.transition_to target =
        (m, .Invalid m.current_status target
          (SessionStateManager.get_invalid_transition_reason m.current_status target)) := by
  intro m target h
  simp [SessionStateManager.transition_to, h]

/-- Witness for C9: scenario S6, a manager in `Done` refusing
`transition_to(Running)`. -/
theorem invalid_transition_rejected_witness :
    (SessionStateManager.is_valid_transition
      (SessionStateManager.with_status "s" .Done).current_status .Running = false) ∧
    (SessionStateManager.with_status "s" .Done).transition_to .Running =
      (SessionStateManager.with_status "s" .Done,
        .Invalid .Done .Running
          (SessionStateManager.get_invalid_transition_reason .Done .Running)) :=
  ⟨by decide, invalid_transition_rejected (SessionStateManager.with_status "s" .Done)
    .Running (by decide)⟩

/-! ## Claim C2: error responses for unknown session ids -/

/-- Claim C2, counterexample: `session.input` for an id absent from the
registry answers with code -32603 (not -32001) and no `data` object — the
handlers wrap every registry error with `JsonRpcError::internal_error`. -/
theorem session_input_unknown_id_counterexample :
    ((RpcMethods.new.session_input { session_id := "nonexistent", data := "" }
        Json.null).error.map (fun e => e.code)) = some (-32603) ∧
    ((RpcMethods.new.session_input { session_id := "nonexistent", data := "" }
        Json.null).error.map (fun e => e.code)) ≠ some (-32001) ∧
    ((RpcMethods.new.session_input { session_id := "nonexistent", data := "" }
        Json.null).error.map (fun e => e.data.isNone)) = some true := by
  refine ⟨rfl, by decide, rfl⟩

/-- Claim C2 (amended): for a `session.input` (likewise `session.resize`
and `session.close`) request naming an id not in the registry, the error
response is `internal_error` — code -32603, message `会话不存在: <id>`, and
no `data` object.  The `From<TerminalError>` conversion, which would have
produced -32001 with `{error_type, error_code, recoverable}`, exists but is
not applied by these handlers. -/
theorem session_unknown_id_amended :
    ∀ (mts : RpcMethods) (sid data : String) (size : TermSize) (jid : Json),
      mts.pty_manager.sessions.lookup sid = none →
      ((mts.session_input { session_id := sid, data := data } jid).error =
          some (JsonRpcError.internal_error ("会话不存在: " ++ sid)) ∧
        (mts.session_resize { session_id := sid, term_size := size } jid).error =
          some (JsonRpcError.internal_error ("会话不存在: " ++ sid)) ∧
        (mts.session_close { session_id := sid } jid).2.error =
          some (JsonRpcError.internal_error ("会话不存在: " ++ sid)) ∧
        JsonRpcError.internal_error ("会话不存在: " ++ sid) =
          { code := -32603, message := "会话不存在: " ++ sid, data := none } ∧
        terminalErrorToJsonRpc (.SessionNotFound sid) =
          { code := -32001, message := "会话不存在: " ++ sid,
            data := some (.obj
              [("error_type", .str "session_not_found"),
               ("error_code", .num 1003),
               ("recoverable", .bool false)]) }) := by
  intro mts sid data size jid h
  refine ⟨?_, ?_, ?_, rfl, rfl⟩
  · simp [RpcMethods.session_input, PtyManager.send_input, h,
      JsonRpcResponse.mkError, TerminalError.toString]
  · simp [RpcMethods.session_resize, PtyManager.resize_session, h,
      JsonRpcResponse.mkError, TerminalError.toString]
  · simp [RpcMethods.session_close, PtyManager.close_session, h,
      JsonRpcResponse.mkError, TerminalError.toString]

/-- Witness for the amended C2 theorem at the empty registry. -/
theorem session_unknown_id_amended_witness :
    (RpcMethods.new.pty_manager.sessions.lookup "nonexistent" = none) ∧
    (RpcMethods.new.session_input { session_id := "nonexistent", data := "" }
        Json.null).error =
      some (JsonRpcError.internal_error ("会话不存在: " ++ "nonexistent")) :=
  ⟨rfl, (session_unknown_id_amended RpcMethods.new "nonexistent" "" TermSize.default
    Json.null rfl).1⟩

/-! ## Claim C10: close removes the session before killing the transport -/

/-- Claim C10: for an id present in the registry, `close_session` removes
it from the session map before attempting to kill the transport, so
whatever the kill outcome (including a failing kill, as in the witness),
the id is gone afterwards and a second close reports session-not-found. -/
theorem close_session_removes_before_kill :
    ∀ (m : PtyManager) (sid : String),
      (m.sessions.lookup sid).isSome = true →
      ((m.close_session sid).1.sessions.lookup sid = none ∧
        ((m.close_session sid).1.close_session sid).2 =
          some (.SessionNotFound sid)) := by
  intro m sid h
  rcases hl : m.sessions.lookup sid with _ | s
  · rw [hl] at h
    simp at h
  · have h1 : (m.close_session sid).1.sessions.lookup sid = none := by
      unfold PtyManager.close_session
      rw [hl]
      dsimp only
      rcases hk : s.kill with _ | e <;> exact lookup_filter_ne_none _ _
    refine ⟨h1, ?_⟩
    set m₁ := (m.close_session sid).1 with hm₁
    show (m₁.close_session sid).2 = some (.SessionNotFound sid)
    unfold PtyManager.close_session
    rw [h1]

/-- Witness for C10: a registry whose only session has a transport whose
kill fails; the session is nonetheless removed and a second close reports
session-not-found. -/
theorem close_session_removes_before_kill_witness :
    ((demoManager.sessions.lookup "sess-1").isSome = true) ∧
    (demoManager.close_session "sess-1").1.sessions.lookup "sess-1" = none ∧
    ((demoManager.close_session "sess-1").1.close_session "sess-1").2 =
      some (.SessionNotFound "sess-1") :=
  ⟨rfl, (close_session_removes_before_kill demoManager "sess-1" rfl).1,
    (close_session_removes_before_kill demoManager "sess-1" rfl).2⟩

/-! ## Claim C7: URL decoding -/

/-- The uppercase hex digit of `n < 16` is a hex digit byte with value `n`. -/
theorem hexDigitUpper_spec {n : Nat} (h : n < 16) :
    isHexDigitByte (hexDigitUpper n) = true ∧ hexVal (hexDigitUpper n) = n := by
  interval_cases n <;> exact ⟨by decide, by decide⟩

/-- A byte kept verbatim by the encoder is not `%`. -/
theorem isUnreservedByte_ne_37 {b : Nat} (h : isUnreservedByte b = true) : b ≠ 37 := by
  intro hb
  subst hb
  simp [isUnreservedByte] at h

/-- Claim C7, counterexample: `%` followed by `+f` is not two hex digits,
so the claim requires it to be preserved verbatim, but
`u8::from_str_radix("+f", 16)` accepts the leading plus sign and the
decoder emits the single byte `0x0F` instead (`"%+f"` is `[37, 43, 102]`). -/
theorem urldecode_plus_counterexample :
    urlencoding_decode (strBytes "%+f") = [15] ∧
    urlencoding_decode (strBytes "%+f") ≠ strBytes "%+f" := by
  decide

/-- One-step unfolding of the decoder at a `%` with two following bytes. -/
theorem urlencoding_decode_percent (h1 h2 : Nat) (rest : List Nat) :
    urlencoding_decode (37 :: h1 :: h2 :: rest) =
      if isHexDigitByte h1 && isHexDigitByte h2 then
        (hexVal h1 * 16 + hexVal h2) :: urlencoding_decode rest
      else if h1 = 43 && isHexDigitByte h2 then hexVal h2 :: urlencoding_decode rest
      else 37 :: h1 :: h2 :: urlencoding_decode rest := rfl

/-- One-step unfolding of the decoder at a non-`%` byte. -/
theorem urlencoding_decode_cons_ne (b : Nat) (rest : List Nat) (hb : ¬b = 37) :
    urlencoding_decode (b :: rest) = b :: urlencoding_decode rest := by
  rcases rest with _ | ⟨x, _ | ⟨y, ys⟩⟩ <;> simp [urlencoding_decode, hb]

/-- Claim C7 (amended): `%HH` with two hex digits decodes to the
corresponding byte; `%+H` (plus sign and one hex digit) decodes to that
digit's value because `u8::from_str_radix` accepts an optional leading
plus; any other `%` with two following bytes is emitted verbatim together
with those two consumed bytes, and a `%` followed by fewer than two bytes
is preserved verbatim; URL-decoding the URL-encoded form of an ASCII byte
sequence returns the original; and the S7 scenarios hold. -/
theorem urldecode_amended :
    (∀ (h1 h2 : Nat) (rest : List Nat),
        isHexDigitByte h1 = true → isHexDigitByte h2 = true →
        urlencoding_decode (37 :: h1 :: h2 :: rest) =
          (hexVal h1 * 16 + hexVal h2) :: urlencoding_decode rest) ∧
    (∀ (h2 : Nat) (rest : List Nat), isHexDigitByte h2 = true →
        urlencoding_decode (37 :: 43 :: h2 :: rest) =
          hexVal h2 :: urlencoding_decode rest) ∧
    (∀ (h1 h2 : Nat) (rest : List Nat),
        ¬(isHexDigitByte h1 = true ∧ isHexDigitByte h2 = true) →
        ¬(h1 = 43 ∧ isHexDigitByte h2 = true) →
        urlencoding_decode (37 :: h1 :: h2 :: rest) =
          37 :: h1 :: h2 :: urlencoding_decode rest) ∧
    (urlencoding_decode [37] = [37] ∧ ∀ h1 : Nat, urlencoding_decode [37, h1] = [37, h1]) ∧
    (∀ bs : List Nat, (∀ b ∈ bs, b < 128) → urlencoding_decode (urlEncode bs) = bs) ∧
    (urlencoding_decode (strBytes "/path%20with%20spaces") = strBytes "/path with spaces" ∧
      urlencoding_decode (strBytes "%2") = strBytes "%2") := by
  refine ⟨?_, ?_, ?_, ⟨by decide, ?_⟩, ?_, by decide⟩
  · intro h1 h2 rest hh1 hh2
    rw [urlencoding_decode_percent, if_pos (by simp [hh1, hh2])]
  · intro h2 rest hh2
    have h43 : isHexDigitByte 43 = false := by decide
    rw [urlencoding_decode_percent, if_neg (by simp [h43]), if_pos (by simp [hh2])]
  · intro h1 h2 rest hA hB
    rw [urlencoding_decode_percent, if_neg (by simpa using hA), if_neg (by simpa using hB)]
  · intro h1
    simp [urlencoding_decode]
  · intro bs hb
    induction bs with
    | nil => rfl
    | cons b rest ih =>
      have hblt : b < 128 := hb b (by simp)
      have hrest : ∀ x ∈ rest, x < 128 := fun x hx => hb x (by simp [hx])
      by_cases hu : isUnreservedByte b = true
      · have hb37 : ¬b = 37 := isUnreservedByte_ne_37 hu
        simp only [urlEncode, hu, if_pos, List.cons_append, List.nil_append]
        rw [urlencoding_decode_cons_ne b _ hb37, ih hrest]
      · have hhi := hexDigitUpper_spec (n := b / 16) (by omega)
        have hlo := hexDigitUpper_spec (n := b % 16) (by omega)
        simp only [urlEncode, hu, if_neg, List.cons_append, List.nil_append,
          Bool.false_eq_true, not_false_iff]
        rw [urlencoding_decode_percent, if_pos (by simp [hhi.1, hlo.1]), hhi.2, hlo.2,
          ih hrest]
        congr 1
        omega

/-- Witness for the amended C7 theorem: `%20` decodes to byte 32, and the
round trip recovers the bytes of `"/a b"`. -/
theorem urldecode_amended_witness :
    (isHexDigitByte 50 = true ∧ isHexDigitByte 48 = true ∧
      urlencoding_decode [37, 50, 48] = (hexVal 50 * 16 + hexVal 48) :: urlencoding_decode []) ∧
    ((∀ b ∈ strBytes "/a b", b < 128) ∧
      urlencoding_decode (urlEncode (strBytes "/a b")) = strBytes "/a b") :=
  ⟨⟨by decide, by decide, urldecode_amended.1 50 48 [] (by decide) (by decide)⟩,
    ⟨by decide, urldecode_amended.2.2.2.2.1 (strBytes "/a b") (by decide)⟩⟩

/-! ## Claim C8: OSC 52 size cap -/

/-- The first `;` in `sel ++ ';' :: b64` sits right after `sel` when `sel`
itself is `;`-free. -/
theorem findSub_semi_append {sel : List Char} (b64 : List Char) (h : ';' ∉ sel) :
    findSub [';'] (sel ++ ';' :: b64) = some sel.length := by
  induction sel with
  | nil => simp [findSub, List.isPrefixOf]
  | cons c cs ih =>
    have hc : c ≠ ';' := fun hc => h (by simp [hc])
    have hcs : ';' ∉ cs := fun hcs => h (by simp [hcs])
    simp only [List.cons_append, findSub, List.append_eq]
    rw [if_neg, ih hcs]
    · rfl
    · intro hp
      rcases List.isPrefixOf_iff_prefix.mp hp with ⟨t, ht⟩
      have hh : some ';' = some c := by simpa using congrArg List.head? ht
      exact hc (Option.some.inj hh).symm

/-- `splitn(2, ';')` on `sel ++ ";" ++ b64` with `;`-free `sel` yields the
two fragments. -/
theorem splitnTwo_semi_append {sel : List Char} (b64 : List Char) (h : ';' ∉ sel) :
    splitnTwo ';' (sel ++ ';' :: b64) = [sel, b64] := by
  rw [splitnTwo, findSub_semi_append b64 h]
  dsimp only
  have h1 : (sel ++ ';' :: b64).take sel.length = sel := by
    simpa using List.take_left sel (';' :: b64)
  have h2 : (sel ++ ';' :: b64).drop (sel.length + 1) = b64 := by
    have : sel ++ ';' :: b64 = (sel ++ [';']) ++ b64 := by simp
    rw [this]
    have hl : (sel ++ [';']).length = sel.length + 1 := by simp
    rw [← hl]
    exact List.drop_left (sel ++ [';']) b64
  rw [h1, h2]

/-- Claim C8: an OSC 52 payload whose base64 part exceeds the configured
cap parses to `Unknown`; with cap 10 the `"52;c;" ++ "A"*100` payload is
dropped while the empty base64 part is a valid clipboard query; the default
cap is 1 MiB. -/
theorem clipboard_size_cap :
    (∀ (cap : Nat) (sel b64 : List Char), ';' ∉ sel → cap < b64.length →
        (OscHandler.new.with_max_clipboard_size cap).parse
          ("52;".toList ++ (sel ++ ';' :: b64)) = .Unknown) ∧
    ((OscHandler.new.with_max_clipboard_size 10).parse
        ("52;c;".toList ++ List.replicate 100 'A') = .Unknown) ∧
    ((OscHandler.new.with_max_clipboard_size 10).parse ("52;c;".toList) =
        .Clipboard { selection := .Clipboard, content := [] }) ∧
    OscHandler.new.max_clipboard_size = 1048576 := by
  refine ⟨?_, by decide, by decide, by decide⟩
  intro cap sel b64 hsel hlen
  have hne : ("52;".toList ++ (sel ++ ';' :: b64)) ≠ [] := by simp
  have h7 : stripPrefix? ("7;".toList) ("52;".toList ++ (sel ++ ';' :: b64)) = none := by
    rw [stripPrefix?, if_neg]
    intro hp
    simp [List.isPrefixOf] at hp
  have h52 : stripPrefix? ("52;".toList) ("52;".toList ++ (sel ++ ';' :: b64)) =
      some (sel ++ ';' :: b64) := by
    rw [stripPrefix?, if_pos]
    · simpa using List.drop_left ("52;".toList) (sel ++ ';' :: b64)
    · exact List.isPrefixOf_iff_prefix.mpr ⟨sel ++ ';' :: b64, rfl⟩
  have hclip : (OscHandler.new.with_max_clipboard_size cap).parse_clipboard
      (sel ++ ';' :: b64) = none := by
    rw [OscHandler.parse_clipboard, splitnTwo_semi_append b64 hsel]
    simp only [OscHandler.new, OscHandler.with_max_clipboard_size]
    rw [if_pos hlen]
  rw [OscHandler.parse, if_neg hne, h7]
  dsimp only
  rw [OscHandler.parse52, h52]
  dsimp only
  rw [hclip]

/-- Witness for C8: the universal cap conjunct at cap 10, selector `c`,
and a 100-character base64 part. -/
theorem clipboard_size_cap_witness :
    (';' ∉ ['c'] ∧ 10 < (List.replicate 100 'A').length) ∧
    (OscHandler.new.with_max_clipboard_size 10).parse
      ("52;".toList ++ (['c'] ++ ';' :: List.replicate 100 'A')) = .Unknown :=
  ⟨⟨by decide, by decide⟩,
    clipboard_size_cap.1 10 ['c'] (List.replicate 100 'A') (by decide) (by decide)⟩

/-! ## Claim C1: passwords in session-info responses -/

set_option maxRecDepth 4000 in
/-- Claim C1, refuting evaluation: a session created from an SSH descriptor
with password `hunter2` is stored verbatim; the snapshots returned by
`session.get` and `session.list` serialize with the serde-derived encoding
of `SessionInfo`, whose `Ssh` variant only skips the `password` field when
it is `None` — the serialized snapshot contains `"password":"hunter2"`. -/
theorem password_leaks_in_session_info :
    ((sshDemoManager.get_session "11111111-2222-3333-4444-555555555555").map
        (fun info => containsSub passwordFragment (serializeSessionInfo info).toList)) =
      some true ∧
    (sshDemoManager.list_sessions.map
        (fun info => containsSub passwordFragment (serializeSessionInfo info).toList)) =
      [true] := by
  refine ⟨?_, ?_⟩ <;> decide

/-! ## Claims C5 and C6: the OSC stripping contract -/

/-- `chooseTerminator` yields nothing exactly when both searches failed. -/
theorem chooseTerminator_eq_none {a b : Option Nat} (h : chooseTerminator a b = none) :
    a = none ∧ b = none := by
  rcases a with _ | x <;> rcases b with _ | y
  · exact ⟨rfl, rfl⟩
  · simp [chooseTerminator] at h
  · simp [chooseTerminator] at h
  · rcases h' : chooseTerminator (some x) (some y) with _ | p
    · simp only [chooseTerminator] at h'
      split at h' <;> simp at h'
    · rw [h'] at h
      simp at h

/-- Once no terminator occurs at or beyond position `c`, the extraction
loop started at any `s ≥ c` finds nothing more. -/
theorem extractLoopF_no_terminator (h : OscHandler) (data : List Char) (c : Nat)
    (hbel : findSub [belC] (data.drop c) = none)
    (hst : findSub stPat (data.drop c) = none) :
    ∀ (fuel s : Nat), c ≤ s → extractLoopF h data fuel s = [] := by
  intro fuel
  induction fuel with
  | zero => intro s _; rfl
  | succ fuel ih =>
    intro s hcs
    simp only [extractLoopF]
    cases hf : findSub oscStartPat (data.drop s) with
    | none => rfl
    | some i =>
      dsimp only
      by_cases hlt : s + i + 2 < data.length
      · rw [if_pos hlt]
        have hdrop : data.drop (s + i + 2) = (data.drop c).drop (s + i + 2 - c) := by
          rw [List.drop_drop]
          congr 1
          omega
        have hb2 : findSub [belC] (data.drop (s + i + 2)) = none := by
          rw [hdrop]
          exact findSub_drop_none hbel _
        have hs2 : findSub stPat (data.drop (s + i + 2)) = none := by
          rw [hdrop]
          exact findSub_drop_none hst _
        rw [hb2, hs2]
        exact ih (s + i + 2) (by omega)
      · rw [if_neg hlt]

/-- Correspondence between the source's extraction loop (with adequate
fuel) and the specification scanner, at every loop entry position. -/
theorem extractLoopF_spec (h : OscHandler) (data : List Char) :
    ∀ (fuel s : Nat), data.length - s < fuel →
      stripConcatFrom data (extractLoopF h data fuel s) s =
        (specStripSequences h (data.drop s)).1 ∧
      (extractLoopF h data fuel s).map (·.sequence) =
        (specStripSequences h (data.drop s)).2 := by
  intro fuel
  induction fuel with
  | zero => intro s hs; omega
  | succ fuel ih =>
    intro s hs
    simp only [extractLoopF]
    rw [specStripSequences.eq_def]
    cases hf : findSub oscStartPat (data.drop s) with
    | none => exact ⟨rfl, rfl⟩
    | some i =>
      dsimp only
      have hdd : ∀ k : Nat, (data.drop s).drop k = data.drop (s + k) := by
        intro k
        rw [List.drop_drop, Nat.add_comm]
      by_cases hlt : s + i + 2 < data.length
      · rw [if_pos hlt, hdd (i + 2), show s + (i + 2) = s + i + 2 from by omega]
        cases hterm : chooseTerminator
            (findSub [belC] (data.drop (s + i + 2)))
            (findSub stPat (data.drop (s + i + 2))) with
        | none =>
          have hboth := chooseTerminator_eq_none hterm
          rw [extractLoopF_no_terminator h data (s + i + 2) hboth.1 hboth.2 fuel
            (s + i + 2) le_rfl]
          exact ⟨rfl, rfl⟩
        | some p =>
          rcases p with ⟨e, t⟩
          dsimp only [stripConcatFrom, List.map_cons]
          have hm : s + i + 2 + e + t = s + (i + 2 + e + t) := by omega
          have hih := ih (s + i + 2 + e + t) (by omega)
          rw [hdd (i + 2 + e + t), ← hm]
          refine ⟨?_, ?_⟩
          · rw [← hih.1]
            congr 1
            rw [Nat.add_sub_cancel_left]
          · rw [← hih.2]
      · rw [if_neg hlt, hdd (i + 2)]
        have hnil : data.drop (s + (i + 2)) = [] :=
          List.drop_eq_nil_of_le (by omega)
        rw [hnil]
        have hb : findSub [belC] ([] : List Char) = none := rfl
        have hst : findSub stPat ([] : List Char) = none := rfl
        rw [hb, hst]
        exact ⟨rfl, rfl⟩

/-- The source's fold over extraction results builds exactly the
inter-sequence concatenation. -/
theorem strip_fold_concat (data : List Char) :
    ∀ (results : List OscParseResult) (acc : List Char) (l : Nat),
      (results.foldl
          (fun acc r => (acc.1 ++ (data.drop acc.2).take (r.start - acc.2), r.stop))
          (acc, l)).1
        ++ data.drop
          (results.foldl
            (fun acc r => (acc.1 ++ (data.drop acc.2).take (r.start - acc.2), r.stop))
            (acc, l)).2
      = acc ++ stripConcatFrom data results l := by
  intro results
  induction results with
  | nil =>
    intro acc l
    rfl
  | cons r rs ih =>
    intro acc l
    simp only [List.foldl_cons, stripConcatFrom]
    rw [ih]
    rw [List.append_assoc]

/-- The source's `strip_sequences` agrees with the specification scanner on
every handler and every input chunk. -/
theorem strip_eq_spec (h : OscHandler) (data : List Char) :
    h.strip_sequences data = specStripSequences h data := by
  have hA := extractLoopF_spec h data (data.length + 1) 0 (by omega)
  rw [List.drop_zero] at hA
  by_cases hres : extractLoopF h data (data.length + 1) 0 = []
  · have hcode : h.strip_sequences data = (data, []) := by
      unfold OscHandler.strip_sequences OscHandler.extract_sequences
      rw [hres]
      rfl
    rw [hres] at hA
    rw [hcode]
    exact Prod.ext hA.1 hA.2
  · have hne : (extractLoopF h data (data.length + 1) 0).isEmpty = false := by
      rcases he : extractLoopF h data (data.length + 1) 0 with _ | ⟨r, rs⟩
      · exact absurd he hres
      · rfl
    have hfold := strip_fold_concat data (extractLoopF h data (data.length + 1) 0) [] 0
    rw [List.nil_append] at hfold
    have hcode : h.strip_sequences data =
        (stripConcatFrom data (extractLoopF h data (data.length + 1) 0) 0,
          (extractLoopF h data (data.length + 1) 0).map (·.sequence)) := by
      unfold OscHandler.strip_sequences OscHandler.extract_sequences
      dsimp only
      rw [hne]
      simp only [Bool.false_eq_true, if_false]
      exact Prod.ext hfold rfl
    rw [hcode]
    exact Prod.ext hA.1 hA.2

/-- Claim C5: `strip_sequences` satisfies the stripping contract — it
equals the specification scanner (well-terminated OSC sequences removed
from start through terminator, events in left-to-right order, an
unterminated trailing OSC left in place with no event) on every input, and
scenario S1 produces `"beforeafter"` with the single
`WorkingDirectory("/home/user")` event. -/
theorem strip_sequences_spec :
    (∀ (h : OscHandler) (data : List Char),
        h.strip_sequences data = specStripSequences h data) ∧
    OscHandler.new.strip_sequences s1Input =
      ("beforeafter".toList, [.WorkingDirectory ("/home/user".toList)]) :=
  ⟨strip_eq_spec, by decide⟩

/-- The specification scanner never lengthens the text. -/
theorem spec_strip_length_le (h : OscHandler) :
    ∀ (n : Nat) (data : List Char), data.length ≤ n →
      (specStripSequences h data).1.length ≤ data.length := by
  intro n
  induction n with
  | zero =>
    intro data hd
    have : data = [] := List.length_eq_zero.mp (by omega)
    subst this
    rw [specStripSequences.eq_def]
    have hn : findSub oscStartPat [] = none := rfl
    rw [hn]
  | succ n ih =>
    intro data hd
    rw [specStripSequences.eq_def]
    cases hf : findSub oscStartPat data with
    | none => exact le_rfl
    | some i =>
      dsimp only
      cases hterm : chooseTerminator
          (findSub [belC] (data.drop (i + 2)))
          (findSub stPat (data.drop (i + 2))) with
      | none => exact le_rfl
      | some p =>
        rcases p with ⟨e, t⟩
        dsimp only
        have hrec := ih (data.drop (i + 2 + e + t))
          (by simp only [List.length_drop]; omega)
        simp only [List.length_append, List.length_take, List.length_drop] at hrec ⊢
        omega

/-- Claim C6: the scanner is a total function of its input (so it
terminates on arbitrary input — the loop embedding needs only
`data.length + 1` fuel and every helper is structurally recursive), and the
stripped text it returns is never longer than the input. -/
theorem strip_sequences_length_le :
    ∀ (h : OscHandler) (data : List Char),
      (h.strip_sequences data).1.length ≤ data.length := by
  intro h data
  rw [strip_eq_spec]
  exact spec_strip_length_le h data.length data le_rfl
